import Mathlib

/-!
Shallow embedding of the yagna market-and-agreement subsystem:
the agreement store DAO (`src/core/market/src/db/dao/agreement.rs`),
the requestor event queue (`src/core/market/decentralized/src/db/dao/events.rs`)
and the provider market engine (`src/agent/provider/src/market/provider_market.rs`).

Database tables are embedded as lists of rows; each DAO operation is a pure
function from the store to an `Except` result paired with the updated store,
mirroring the body of the corresponding Rust transaction.  Timestamps are
integers (seconds); node identities are naturals.
-/

set_option linter.unusedVariables false

deriving instance DecidableEq for Except

namespace Yagna

/-- Agreement lifecycle states, from `AgreementState` in the market model. -/
inductive AgreementState
  | Proposal
  | Pending
  | Cancelled
  | Rejected
  | Approved
  | Expired
  | Terminated
  deriving DecidableEq

/-- Side of the marketplace owning an id, from `OwnerType`. -/
inductive OwnerType
  | Provider
  | Requestor
  deriving DecidableEq

/-- An agreement id carries an intrinsic owner tag. -/
structure AgreementId where
  num : Nat
  owner : OwnerType
  deriving DecidableEq

/-- `AgreementId::swap_owner`: the mirror-image id held by the counterparty. -/
def AgreementId.swap_owner (id : AgreementId) : AgreementId :=
  { id with owner := match id.owner with
      | OwnerType.Provider => OwnerType.Requestor
      | OwnerType.Requestor => OwnerType.Provider }

abbrev NodeId := Nat
abbrev ProposalId := Nat

/-- A row of the `market_agreement` table. -/
structure Agreement where
  id : AgreementId
  offer_proposal_id : ProposalId
  provider_id : NodeId
  requestor_id : NodeId
  valid_to : Int
  state : AgreementState
  session_id : Option String
  deriving DecidableEq

/-- Kind of an agreement event row. -/
inductive AgreementEventType
  | Approved
  | Terminated
  | Rejected
  | Cancelled
  deriving DecidableEq

/-- A row of the `market_agreement_event` table. -/
structure AgreementEventRow where
  agreement_id : AgreementId
  event_type : AgreementEventType
  reason : Option String
  issuer : OwnerType
  deriving DecidableEq

/-- A row of the proposal table: only the fields the agreement DAO reads
(`accepted` / `countered` flags keyed by proposal id). -/
structure ProposalRow where
  id : ProposalId
  accepted : Bool
  countered : Bool
  deriving DecidableEq

/-- The market database: the three relations the agreement DAO touches. -/
structure MarketStore where
  agreements : List Agreement
  events : List AgreementEventRow
  proposals : List ProposalRow
  deriving DecidableEq

/-- Errors of agreement state manipulation (`StateError`); database errors are
out of the model, so only the not-found read and the transition error remain. -/
inductive StateError
  | InvalidTransition (source : AgreementState) (target : AgreementState)
  | NotFound
  deriving DecidableEq

/-- `SaveAgreementError` without the `Internal` database wrapper. -/
inductive SaveAgreementError
  | ProposalCountered (pid : ProposalId)
  | Exists (id : AgreementId) (pid : ProposalId)
  deriving DecidableEq

/-- `check_transition` from `agreement.rs`: the pure legality oracle for
agreement state transitions, with the same nested-match shape as the source. -/
def check_transition (f t : AgreementState) : Except StateError Unit :=
  match f with
  | AgreementState.Proposal =>
    match t with
    | AgreementState.Pending => Except.ok ()
    | AgreementState.Cancelled => Except.ok ()
    | AgreementState.Expired => Except.ok ()
    | _ => Except.error (StateError.InvalidTransition f t)
  | AgreementState.Pending =>
    match t with
    | AgreementState.Cancelled => Except.ok ()
    | AgreementState.Rejected => Except.ok ()
    | AgreementState.Approved => Except.ok ()
    | AgreementState.Expired => Except.ok ()
    | _ => Except.error (StateError.InvalidTransition f t)
  | AgreementState.Approved =>
    match t with
    | AgreementState.Terminated => Except.ok ()
    | _ => Except.error (StateError.InvalidTransition f t)
  | _ => Except.error (StateError.InvalidTransition f t)

/-- The eight legal transitions listed by the claim. -/
def allowed_transitions : List (AgreementState × AgreementState) :=
  [(AgreementState.Proposal, AgreementState.Pending),
   (AgreementState.Proposal, AgreementState.Cancelled),
   (AgreementState.Proposal, AgreementState.Expired),
   (AgreementState.Pending, AgreementState.Cancelled),
   (AgreementState.Pending, AgreementState.Rejected),
   (AgreementState.Pending, AgreementState.Approved),
   (AgreementState.Pending, AgreementState.Expired),
   (AgreementState.Approved, AgreementState.Terminated)]

/-- `update_state` from `agreement.rs`: checks the transition, then updates the
row in place (all rows carrying the agreement id) and the in-memory copy. -/
def set_state_rows (st : MarketStore) (id : AgreementId) (to_state : AgreementState) :
    MarketStore :=
  { st with agreements := st.agreements.map fun r =>
      if r.id = id then { r with state := to_state } else r }

def update_state (st : MarketStore) (a : Agreement) (to_state : AgreementState) :
    Except StateError (Agreement × MarketStore) :=
  match check_transition a.state to_state with
  | Except.error e => Except.error e
  | Except.ok _ => Except.ok ({ a with state := to_state }, set_state_rows st a.id to_state)

/-- The row filter built by `select`: match on id, and when a node id is
supplied additionally match it against the column chosen by the id's owner. -/
def select_filter (id : AgreementId) (node_id : Option NodeId) (r : Agreement) : Bool :=
  r.id == id &&
    match node_id with
    | none => true
    | some n =>
      match id.owner with
      | OwnerType.Provider => r.provider_id == n
      | OwnerType.Requestor => r.requestor_id == n

/-- `AgreementDao::select`: fetch by id (optionally filtered by the owner
node), lazily expiring the agreement when `valid_to < validation_ts`, with
`InvalidTransition` errors from the expiration silently absorbed. -/
def select (st : MarketStore) (id : AgreementId) (node_id : Option NodeId)
    (validation_ts : Int) : Except StateError (Option Agreement × MarketStore) :=
  match st.agreements.find? (select_filter id node_id) with
  | none => Except.ok (none, st)
  | some a =>
    if a.valid_to < validation_ts then
      match update_state st a AgreementState.Expired with
      | Except.error (StateError.InvalidTransition _ _) => Except.ok (some a, st)
      | Except.error e => Except.error e
      | Except.ok (a', st') => Except.ok (some a', st')
    else Except.ok (some a, st)

/-- Modelled from the spec: `has_counter(id) → bool` of the proposal store
(§4.1); `has_counter_proposal` lives in `db/dao/proposal.rs`, which is not
among the sources, so it is modelled as reading the proposal row's
`countered` flag (false when the row is absent). -/
def has_counter_proposal (ps : List ProposalRow) (pid : ProposalId) : Bool :=
  match ps.find? (fun p => p.id == pid) with
  | some p => p.countered
  | none => false

/-- Modelled from the spec: `mark_accepted(id)` of the proposal store (§4.1);
`set_proposal_accepted` lives in `db/dao/proposal.rs`, which is not among the
sources, so it is modelled as setting the row's `accepted` flag. -/
def set_proposal_accepted (ps : List ProposalRow) (pid : ProposalId) : List ProposalRow :=
  ps.map fun p => if p.id = pid then { p with accepted := true } else p

/-- `find_agreement_for_proposal` from `agreement.rs`: first agreement row
referencing the proposal. -/
def find_agreement_for_proposal (ags : List Agreement) (pid : ProposalId) :
    Option Agreement :=
  ags.find? (fun a => a.offer_proposal_id == pid)

/-- `AgreementDao::save`: refuse a countered proposal, refuse a proposal that
already anchors an agreement, otherwise insert the row and mark the proposal
accepted in the same transaction. -/
def save (st : MarketStore) (a : Agreement) :
    Except SaveAgreementError (Agreement × MarketStore) :=
  let proposal_id := a.offer_proposal_id
  if has_counter_proposal st.proposals proposal_id then
    Except.error (SaveAgreementError.ProposalCountered proposal_id)
  else
    match find_agreement_for_proposal st.agreements proposal_id with
    | some existing => Except.error (SaveAgreementError.Exists existing.id proposal_id)
    | none =>
      Except.ok (a, { st with
        agreements := st.agreements ++ [a],
        proposals := set_proposal_accepted st.proposals proposal_id })

/-- Modelled from the spec: the event kind recorded for an agreement in a given
state (§3, AgreementEvent kinds); `create_event` lives in
`db/dao/agreement_events.rs`, which is not among the sources. -/
def event_type_of : AgreementState → Option AgreementEventType
  | AgreementState.Approved => some AgreementEventType.Approved
  | AgreementState.Terminated => some AgreementEventType.Terminated
  | AgreementState.Rejected => some AgreementEventType.Rejected
  | AgreementState.Cancelled => some AgreementEventType.Cancelled
  | _ => none

/-- Modelled from the spec: `create_event` appends an agreement event row whose
kind is derived from the agreement's (already updated) state, carrying the
optional reason and the terminator/issuer role. -/
def create_event (st : MarketStore) (a : Agreement) (reason : Option String)
    (issuer : OwnerType) : MarketStore :=
  match event_type_of a.state with
  | some k => { st with events := st.events ++ [⟨a.id, k, reason, issuer⟩] }
  | none => st

/-- `AgreementDao::terminate`: read the row, move it to `Terminated` through
`update_state`, and record the termination event. -/
def terminate (st : MarketStore) (id : AgreementId) (reason : Option String)
    (terminator : OwnerType) : Except StateError (Bool × MarketStore) :=
  match st.agreements.find? (fun r => r.id == id) with
  | none => Except.error StateError.NotFound
  | some a =>
    match update_state st a AgreementState.Terminated with
    | Except.error e => Except.error e
    | Except.ok (a', st') => Except.ok (true, create_event st' a' reason terminator)

/-- Modelled from the spec: `EnvConfig::get_value` for
`YAGNA_MARKET_AGREEMENT_STORE_DAYS` (default 90 days, clamped to a floor of
30); the `EnvConfig` implementation is not among the sources. -/
def agreement_store_days (env_value : Option Nat) : Nat :=
  max (env_value.getD 90) 30

def seconds_per_day : Int := 86400

/-- `AgreementDao::clean`, with the two DELETE statements executed in source
order: first the agreements older than the cutoff are deleted, then the event
DELETE runs, whose `IN (SELECT id FROM market_agreement WHERE valid_to < cutoff)`
subquery is evaluated against the table as it stands after the first DELETE. -/
def clean (st : MarketStore) (now : Int) (interval_days : Nat) : MarketStore :=
  let cutoff := now - seconds_per_day * (interval_days : Int)
  let st1 : MarketStore :=
    { st with agreements := st.agreements.filter fun a => !decide (a.valid_to < cutoff) }
  let old_ids :=
    (st1.agreements.filter fun a => decide (a.valid_to < cutoff)).map (fun a => a.id)
  { st1 with events := st1.events.filter fun e => !old_ids.contains e.agreement_id }

/-- A row of the `market_event` table (decentralized market). -/
structure MarketEvent where
  id : Nat
  subscription_id : Nat
  timestamp : Int
  deriving DecidableEq

/-- Subscription status as seen by `demand_status`. -/
inductive DemandState
  | Active
  | Expired
  | NotFound
  deriving DecidableEq

/-- The event-queue database: the demand (subscription) table and the event
table. -/
structure EventStore where
  demands : List (Nat × DemandState)
  events : List MarketEvent
  deriving DecidableEq

/-- `TakeEventsError` without the database wrapper. -/
inductive TakeEventsError
  | SubscriptionNotFound (s : Nat)
  | SubscriptionExpired (s : Nat)
  deriving DecidableEq

/-- Modelled from the spec: `demand_status` (subscription state ∈ {Active,
Expired, NotFound}, §3); `db/dao/demand.rs` is not among the sources, so the
status is looked up in the demand table, absent rows reading `NotFound`. -/
def demand_status (ds : List (Nat × DemandState)) (s : Nat) : DemandState :=
  match ds.find? (fun d => d.1 == s) with
  | some d => d.2
  | none => DemandState.NotFound

/-- Timestamp order on market events (the `ORDER BY timestamp ASC` of `take`). -/
def event_le (a b : MarketEvent) : Prop := a.timestamp ≤ b.timestamp

instance : DecidableRel event_le := fun a b => inferInstanceAs (Decidable (a.timestamp ≤ b.timestamp))

instance : IsTotal MarketEvent event_le := ⟨fun a b => Int.le_total a.timestamp b.timestamp⟩

instance : IsTrans MarketEvent event_le := ⟨fun _ _ _ => Int.le_trans⟩

/-- `EventsDao::take_requestor_events`: inside one transaction, check the
subscription status, read up to `max_events` pending events in ascending
timestamp order, delete the returned rows by id, and return them. -/
def take_requestor_events (st : EventStore) (subscription_id : Nat) (max_events : Nat) :
    Except TakeEventsError (List MarketEvent × EventStore) :=
  match demand_status st.demands subscription_id with
  | DemandState.NotFound => Except.error (TakeEventsError.SubscriptionNotFound subscription_id)
  | DemandState.Expired => Except.error (TakeEventsError.SubscriptionExpired subscription_id)
  | DemandState.Active =>
    let pending := st.events.filter (fun e => e.subscription_id == subscription_id)
    let events := (List.insertionSort event_le pending).take max_events
    if events.isEmpty then
      Except.ok (events, st)
    else
      let ids := events.map (fun e => e.id)
      Except.ok (events,
        { st with events := st.events.filter (fun e => !ids.contains e.id) })

/-- A negotiation proposal body, from `ya_model::market::Proposal`
(`src/interfaces/model/src/market/proposal.rs`); the properties value is
kept opaque as a string. -/
structure Proposal where
  id : String
  properties : String
  constraints : String
  prev_proposal_id : Option String
  deriving DecidableEq

/-- The inbound agreement proposal handed to the negotiator; only the fields
`provider_market.rs` reads (its own id and the provider-side offer). -/
structure AgreementProposal where
  id : String
  offer : Proposal
  deriving DecidableEq

/-- `ProposalResponse` of the negotiator contract. -/
inductive ProposalResponse
  | AcceptProposal
  | CounterProposal (proposal : Proposal)
  | IgnoreProposal
  | RejectProposal
  deriving DecidableEq

/-- Observable calls `ProviderMarket` makes on the market transport; a
`mark_countered` kind is included so that statements about countered-marking
are expressible (the engine under `src/` never emits it). -/
inductive TransportCall
  | create_proposal (body : Proposal) (subscription_id : String) (proposal_id : String)
  | reject_proposal (subscription_id : String) (proposal_id : String)
  | mark_countered (proposal_id : String)
  deriving DecidableEq

/-- `ProviderMarket::accept_proposal`: resend the own offer as a response to
the inbound proposal. -/
def accept_proposal (subscription_id : String) (proposal : AgreementProposal) :
    List TransportCall :=
  [TransportCall.create_proposal proposal.offer subscription_id proposal.id]

/-- `ProviderMarket::counter_proposal`: send the negotiator's new proposal
body, passing `proposal.id` — the id field of that new body — as the
`proposal_id` argument of `create_proposal`. -/
def counter_proposal (subscription_id : String) (proposal : Proposal) :
    List TransportCall :=
  [TransportCall.create_proposal proposal subscription_id proposal.id]

/-- `ProviderMarket::reject_proposal`. -/
def reject_proposal (subscription_id : String) (proposal : AgreementProposal) :
    List TransportCall :=
  [TransportCall.reject_proposal subscription_id proposal.id]

/-- `ProviderMarket::process_proposal`: ask the negotiator and dispatch on the
response; a negotiator error is logged and produces no transport call. -/
def process_proposal (react : AgreementProposal → Except String ProposalResponse)
    (subscription_id : String) (proposal : AgreementProposal) : List TransportCall :=
  match react proposal with
  | Except.ok ProposalResponse.AcceptProposal => accept_proposal subscription_id proposal
  | Except.ok (ProposalResponse.CounterProposal p) => counter_proposal subscription_id p
  | Except.ok ProposalResponse.IgnoreProposal => []
  | Except.ok ProposalResponse.RejectProposal => reject_proposal subscription_id proposal
  | Except.error _ => []

/-- `ProviderMarket::onshutdown`: walk the subscription list in order calling
`unsubscribe`, with `?` on each call; returns the overall result and the list
of subscriptions on which `unsubscribe` was actually invoked. -/
def onshutdown (unsub : String → Except String Unit) :
    List String → Except String Unit × List String
  | [] => (Except.ok (), [])
  | s :: rest =>
    match unsub s with
    | Except.error e => (Except.error e, [s])
    | Except.ok _ =>
      let r := onshutdown unsub rest
      (r.1, s :: r.2)

/-! Concrete stores and inputs used by witnesses and counterexamples. -/

/-- An agreement whose `valid_to` lies 120 days in the past of `now = 0`. -/
def old_agreement : Agreement :=
  { id := ⟨1, OwnerType.Provider⟩, offer_proposal_id := 1, provider_id := 1,
    requestor_id := 2, valid_to := -(120 * 86400), state := AgreementState.Approved,
    session_id := none }

/-- An event attached to `old_agreement`. -/
def old_agreement_event : AgreementEventRow :=
  { agreement_id := ⟨1, OwnerType.Provider⟩, event_type := AgreementEventType.Approved,
    reason := none, issuer := OwnerType.Provider }

/-- A store holding only `old_agreement` and its event. -/
def retention_store : MarketStore :=
  { agreements := [old_agreement], events := [old_agreement_event], proposals := [] }

/-- A fresh (neither accepted nor countered) proposal row with id 1. -/
def fresh_proposal_row : ProposalRow := { id := 1, accepted := false, countered := false }

/-- A store with one fresh proposal and no agreements. -/
def save_store : MarketStore :=
  { agreements := [], events := [], proposals := [fresh_proposal_row] }

/-- An agreement anchored at proposal 1, with distinct identities. -/
def save_agreement : Agreement :=
  { id := ⟨10, OwnerType.Requestor⟩, offer_proposal_id := 1, provider_id := 3,
    requestor_id := 4, valid_to := 1000, state := AgreementState.Proposal,
    session_id := none }

/-- The store produced by a successful `save save_store save_agreement`. -/
def save_store_after : MarketStore :=
  { agreements := [save_agreement], events := [],
    proposals := [{ id := 1, accepted := true, countered := false }] }

/-- A pending agreement whose `valid_to` has passed at `ts = 1`. -/
def pending_agreement : Agreement :=
  { id := ⟨5, OwnerType.Requestor⟩, offer_proposal_id := 2, provider_id := 7,
    requestor_id := 8, valid_to := 0, state := AgreementState.Pending,
    session_id := none }

/-- A store holding only `pending_agreement`. -/
def pending_store : MarketStore :=
  { agreements := [pending_agreement], events := [], proposals := [] }

/-- An approved agreement, terminable. -/
def approved_agreement : Agreement :=
  { id := ⟨3, OwnerType.Requestor⟩, offer_proposal_id := 4, provider_id := 1,
    requestor_id := 2, valid_to := 50, state := AgreementState.Approved,
    session_id := some "sess" }

/-- A store holding only `approved_agreement`. -/
def approved_store : MarketStore :=
  { agreements := [approved_agreement], events := [], proposals := [] }

/-- An agreement that binds the same node identity on both sides. -/
def equal_identity_agreement : Agreement :=
  { id := ⟨7, OwnerType.Provider⟩, offer_proposal_id := 1, provider_id := 5,
    requestor_id := 5, valid_to := 100, state := AgreementState.Proposal,
    session_id := none }

/-- Two events of subscription 0 at timestamps 1 and 2. -/
def queue_event_1 : MarketEvent := { id := 1, subscription_id := 0, timestamp := 1 }

def queue_event_2 : MarketEvent := { id := 2, subscription_id := 0, timestamp := 2 }

/-- An event store with an active subscription 0 owning both events. -/
def queue_store : EventStore :=
  { demands := [(0, DemandState.Active)], events := [queue_event_1, queue_event_2] }

/-- `queue_store` after `take_requestor_events queue_store 0 1`. -/
def queue_store_after : EventStore :=
  { demands := [(0, DemandState.Active)], events := [queue_event_2] }

/-- An unsubscribe outcome that fails on subscription "a" and succeeds elsewhere. -/
def failing_unsub (s : String) : Except String Unit :=
  if s = "a" then Except.error "boom" else Except.ok ()

/-- A counter-proposal body whose own id differs from the inbound proposal's id. -/
def counter_body : Proposal :=
  { id := "new-id", properties := "p", constraints := "c", prev_proposal_id := none }

/-- The inbound proposal the negotiator is reacting to. -/
def inbound_proposal : AgreementProposal :=
  { id := "inbound-id",
    offer := { id := "offer-id", properties := "q", constraints := "d",
               prev_proposal_id := none } }

/-- A negotiator that always counters with `counter_body`. -/
def countering_negotiator (p : AgreementProposal) : Except String ProposalResponse :=
  Except.ok (ProposalResponse.CounterProposal counter_body)

/-- The invariant of claim C9: no stored agreement binds equal identities. -/
def distinct_identities (st : MarketStore) : Prop :=
  ∀ r ∈ st.agreements, r.provider_id ≠ r.requestor_id

instance (st : MarketStore) : Decidable (distinct_identities st) :=
  inferInstanceAs (Decidable (∀ r ∈ st.agreements, r.provider_id ≠ r.requestor_id))

/-! Helper lemmas. -/

/-- `check_transition` only ever fails with `InvalidTransition f t`. -/
theorem check_transition_cases (f t : AgreementState) :
    check_transition f t = Except.ok () ∨
      check_transition f t = Except.error (StateError.InvalidTransition f t) := by
  cases f <;> cases t <;> simp [check_transition]

/-- A transition into `Terminated` from anything but `Approved` is refused. -/
theorem check_transition_to_terminated (s : AgreementState)
    (h : s ≠ AgreementState.Approved) :
    check_transition s AgreementState.Terminated =
      Except.error (StateError.InvalidTransition s AgreementState.Terminated) := by
  cases s <;> first | rfl | exact absurd rfl h

/-- C3: `check_transition (f, t)` returns `Ok` exactly on the eight pairs
Proposal→Pending, Proposal→Cancelled, Proposal→Expired, Pending→Cancelled,
Pending→Rejected, Pending→Approved, Pending→Expired, Approved→Terminated,
and on every other pair — all self-transitions included — it returns
`InvalidTransition {from := f, to := t}`. -/
theorem check_transition_characterization (f t : AgreementState) :
    check_transition f t =
      (if (f, t) ∈ allowed_transitions then Except.ok ()
       else Except.error (StateError.InvalidTransition f t)) := by
  cases f <;> cases t <;> decide

/-- `clean` deletes no event rows at all: the agreements matching the cutoff
are deleted first, so the subquery collecting their ids afterwards is empty. -/
theorem clean_events_unchanged (st : MarketStore) (now : Int) (days : Nat) :
    (clean st now days).events = st.events := by
  unfold clean
  simp [List.filter_filter]

/-- C1: the claim says that after `clean()` no agreement older than the
retention cutoff remains and none of the events of the deleted agreements
remain either.  The code deletes the old agreements but leaves every one of
their events orphaned: the event DELETE's subquery re-reads the agreement
table after the first DELETE already emptied it of old rows, so no event ever
matches.  On `retention_store` (one agreement 120 days old with one event,
retention 90 days) the agreement is removed and its event survives. -/
theorem clean_leaves_orphaned_events :
    (∀ st now days, (clean st now days).events = st.events) ∧
    (clean retention_store 0 (agreement_store_days none)).agreements = [] ∧
    (clean retention_store 0 (agreement_store_days none)).events = [old_agreement_event] :=
  ⟨clean_events_unchanged, by decide, by decide⟩

/-- C5: when `select` finds an agreement whose `valid_to` is strictly earlier
than the validation timestamp, then: if the current state admits the
transition to `Expired`, the row is persisted as `Expired` and the returned
agreement has state `Expired`; otherwise the `InvalidTransition` error is
silently absorbed and the agreement is returned with its state (and the
store) unchanged. -/
theorem select_lazy_expiration (st : MarketStore) (id : AgreementId)
    (node_id : Option NodeId) (ts : Int) (a : Agreement)
    (hfind : st.agreements.find? (select_filter id node_id) = some a)
    (hexp : a.valid_to < ts) :
    (check_transition a.state AgreementState.Expired = Except.ok () →
      select st id node_id ts =
        Except.ok (some { a with state := AgreementState.Expired },
          set_state_rows st a.id AgreementState.Expired) ∧
      ∀ r ∈ (set_state_rows st a.id AgreementState.Expired).agreements,
        r.id = a.id → r.state = AgreementState.Expired) ∧
    (∀ f t, check_transition a.state AgreementState.Expired =
        Except.error (StateError.InvalidTransition f t) →
      select st id node_id ts = Except.ok (some a, st)) := by
  constructor
  · intro hok
    constructor
    · simp [select, hfind, hexp, update_state, hok]
    · intro r hr hid
      simp only [set_state_rows, List.mem_map] at hr
      obtain ⟨r₀, hr₀, hmap⟩ := hr
      by_cases h : r₀.id = a.id
      · rw [if_pos h] at hmap
        rw [← hmap]
      · rw [if_neg h] at hmap
        rw [← hmap] at hid
        exact absurd hid h
  · intro f t herr
    simp [select, hfind, hexp, update_state, herr]

/-- C5 witness: `pending_agreement` (state `Pending`, `valid_to = 0`) queried
at `ts = 1` comes back `Expired`, and the stored row is `Expired` too. -/
theorem select_lazy_expiration_witness :
    select pending_store pending_agreement.id none 1 =
      Except.ok (some { pending_agreement with state := AgreementState.Expired },
        set_state_rows pending_store pending_agreement.id AgreementState.Expired) :=
  ((select_lazy_expiration pending_store pending_agreement.id none 1 pending_agreement
      (by decide) (by decide)).1 (by decide)).1

/-- C6: `terminate` succeeds exactly when the agreement is `Approved`, moving
it to `Terminated` and appending one `Terminated` event that carries the
reason and the terminator role; from any other state it fails with
`InvalidTransition` (the transaction returns the error and records nothing).
Together with C3 this gives invariant (A4): a `Terminated` agreement was
previously `Approved`. -/
theorem terminate_only_from_approved (st : MarketStore) (id : AgreementId)
    (reason : Option String) (terminator : OwnerType) (a : Agreement)
    (hfind : st.agreements.find? (fun r => r.id == id) = some a) :
    (a.state = AgreementState.Approved →
      terminate st id reason terminator =
        Except.ok (true,
          { set_state_rows st a.id AgreementState.Terminated with
            events := st.events ++
              [⟨a.id, AgreementEventType.Terminated, reason, terminator⟩] }) ∧
      ∀ r ∈ (set_state_rows st a.id AgreementState.Terminated).agreements,
        r.id = a.id → r.state = AgreementState.Terminated) ∧
    (a.state ≠ AgreementState.Approved →
      terminate st id reason terminator =
        Except.error (StateError.InvalidTransition a.state AgreementState.Terminated)) := by
  constructor
  · intro h
    constructor
    · simp [terminate, hfind, update_state, h, check_transition, create_event,
        event_type_of, set_state_rows]
    · intro r hr hid
      simp only [set_state_rows, List.mem_map] at hr
      obtain ⟨r₀, hr₀, hmap⟩ := hr
      by_cases hcase : r₀.id = a.id
      · rw [if_pos hcase] at hmap
        rw [← hmap]
      · rw [if_neg hcase] at hmap
        rw [← hmap] at hid
        exact absurd hid hcase
  · intro h
    simp [terminate, hfind, update_state, check_transition_to_terminated a.state h]

/-- C6 witness: terminating `approved_agreement` succeeds, stores state
`Terminated` and records the `Terminated` event with reason and terminator. -/
theorem terminate_only_from_approved_witness :
    terminate approved_store approved_agreement.id (some "fault") OwnerType.Requestor =
      Except.ok (true,
        { set_state_rows approved_store approved_agreement.id AgreementState.Terminated with
          events := approved_store.events ++
            [⟨approved_agreement.id, AgreementEventType.Terminated, some "fault",
              OwnerType.Requestor⟩] }) :=
  ((terminate_only_from_approved approved_store approved_agreement.id (some "fault")
      OwnerType.Requestor approved_agreement (by decide)).1 (by decide)).1

/-- C10: with `node_id = none`, `select`'s row filter degenerates to the id
match alone, so the agreement carrying the id is returned — whatever node
identities it binds — subject only to the lazy-expiration side effect. -/
theorem select_without_node_filter (st : MarketStore) (id : AgreementId) (ts : Int)
    (a : Agreement)
    (hfind : st.agreements.find? (fun r => r.id == id) = some a) :
    (∀ r, select_filter id none r = (r.id == id)) ∧
    ∃ a' st', select st id none ts = Except.ok (some a', st') ∧
      a'.id = a.id ∧ a'.provider_id = a.provider_id ∧
      a'.requestor_id = a.requestor_id ∧
      a'.offer_proposal_id = a.offer_proposal_id ∧
      (a' = a ∨ a'.state = AgreementState.Expired) := by
  have hpred : select_filter id none = fun r : Agreement => r.id == id := by
    funext r
    simp [select_filter]
  have hfind' : st.agreements.find? (select_filter id none) = some a := by
    rw [hpred]
    exact hfind
  refine ⟨fun r => by rw [hpred], ?_⟩
  by_cases hexp : a.valid_to < ts
  · rcases check_transition_cases a.state AgreementState.Expired with hok | herr
    · refine ⟨{ a with state := AgreementState.Expired },
        set_state_rows st a.id AgreementState.Expired, ?_, rfl, rfl, rfl, rfl, Or.inr rfl⟩
      simp [select, hfind', hexp, update_state, hok]
    · refine ⟨a, st, ?_, rfl, rfl, rfl, rfl, Or.inl rfl⟩
      simp [select, hfind', hexp, update_state, herr]
  · refine ⟨a, st, ?_, rfl, rfl, rfl, rfl, Or.inl rfl⟩
    simp [select, hfind', hexp]

/-- C10 witness at `pending_store`: the filter applied under `node_id = none`
reduces to the bare id comparison, here evaluated on a row binding entirely
different identities. -/
theorem select_without_node_filter_witness :
    select_filter pending_agreement.id none equal_identity_agreement =
      (equal_identity_agreement.id == pending_agreement.id) :=
  (select_without_node_filter pending_store pending_agreement.id 0 pending_agreement
    (by decide)).1 equal_identity_agreement

/-- Unfolding `has_counter_proposal` over a cons cell. -/
theorem has_counter_cons (p : ProposalRow) (ps : List ProposalRow) (q : ProposalId) :
    has_counter_proposal (p :: ps) q =
      (if p.id = q then p.countered else has_counter_proposal ps q) := by
  by_cases h : p.id = q
  · simp [has_counter_proposal, h]
  · simp [has_counter_proposal, h]

/-- Marking a proposal accepted does not change any `countered` flag. -/
theorem has_counter_set_accepted (ps : List ProposalRow) (pid q : ProposalId) :
    has_counter_proposal (set_proposal_accepted ps pid) q = has_counter_proposal ps q := by
  induction ps with
  | nil => rfl
  | cons p ps ih =>
    have hcons : set_proposal_accepted (p :: ps) pid =
        (if p.id = pid then { p with accepted := true } else p) ::
          set_proposal_accepted ps pid := rfl
    rw [hcons]
    by_cases h : p.id = pid
    · rw [if_pos h, has_counter_cons, has_counter_cons, ih]
    · rw [if_neg h, has_counter_cons, has_counter_cons, ih]

/-- After `set_proposal_accepted ps pid`, the row with id `pid` is accepted. -/
theorem set_proposal_accepted_mem (ps : List ProposalRow) (pid : ProposalId) :
    ∀ p ∈ set_proposal_accepted ps pid, p.id = pid → p.accepted = true := by
  intro p hp hid
  simp only [set_proposal_accepted, List.mem_map] at hp
  obtain ⟨p₀, hp₀, hmap⟩ := hp
  by_cases h : p₀.id = pid
  · rw [if_pos h] at hmap
    rw [← hmap]
  · rw [if_neg h] at hmap
    rw [← hmap] at hid
    exact absurd hid h

/-- C2: `save` fails `ProposalCountered` when the referenced proposal is
countered, fails `Exists (existing.id, proposal_id)` when some agreement
already references the proposal, and otherwise inserts the agreement and
marks the proposal accepted in the same transaction; consequently a second
`save` of the same agreement fails with `Exists`. -/
theorem save_behavior (st : MarketStore) (a : Agreement) :
    (has_counter_proposal st.proposals a.offer_proposal_id = true →
      save st a = Except.error (SaveAgreementError.ProposalCountered a.offer_proposal_id)) ∧
    (∀ ex, has_counter_proposal st.proposals a.offer_proposal_id = false →
      find_agreement_for_proposal st.agreements a.offer_proposal_id = some ex →
      save st a = Except.error (SaveAgreementError.Exists ex.id a.offer_proposal_id)) ∧
    (has_counter_proposal st.proposals a.offer_proposal_id = false →
      find_agreement_for_proposal st.agreements a.offer_proposal_id = none →
      save st a = Except.ok (a, { st with
          agreements := st.agreements ++ [a],
          proposals := set_proposal_accepted st.proposals a.offer_proposal_id }) ∧
      ∀ p ∈ set_proposal_accepted st.proposals a.offer_proposal_id,
        p.id = a.offer_proposal_id → p.accepted = true) ∧
    (∀ a' st', save st a = Except.ok (a', st') →
      save st' a = Except.error (SaveAgreementError.Exists a.id a.offer_proposal_id)) := by
  refine ⟨?_, ?_, ?_, ?_⟩
  · intro h
    simp [save, h]
  · intro ex h hf
    simp [save, h, hf]
  · intro h hf
    exact ⟨by simp [save, h, hf], set_proposal_accepted_mem _ _⟩
  · intro a' st' hok
    cases hcp : has_counter_proposal st.proposals a.offer_proposal_id with
    | true => simp [save, hcp] at hok
    | false =>
      cases hf : find_agreement_for_proposal st.agreements a.offer_proposal_id with
      | some ex => simp [save, hcp, hf] at hok
      | none =>
        simp only [save, hcp, hf, Bool.false_eq_true, if_false, Except.ok.injEq,
          Prod.mk.injEq] at hok
        obtain ⟨ha, hst⟩ := hok
        have hc : has_counter_proposal
            (set_proposal_accepted st.proposals a.offer_proposal_id)
            a.offer_proposal_id = false := by
          rw [has_counter_set_accepted]
          exact hcp
        have hfind : find_agreement_for_proposal
            (st.agreements ++ [a]) a.offer_proposal_id = some a := by
          unfold find_agreement_for_proposal at hf ⊢
          rw [List.find?_append, hf]
          simp
        rw [← hst]
        simp [save, hc, hfind]

/-- C2 witness: saving `save_agreement` into `save_store` succeeds and yields
`save_store_after`; saving the same agreement again fails with `Exists`. -/
theorem save_behavior_witness :
    save save_store_after save_agreement =
      Except.error (SaveAgreementError.Exists save_agreement.id
        save_agreement.offer_proposal_id) :=
  (save_behavior save_store save_agreement).2.2.2 save_agreement save_store_after
    (by decide)

/-- C7 counterexample: over subscriptions ["a", "b"] with an unsubscribe that
fails on "a", `onshutdown` propagates the error after attempting only "a";
subscription "b" is never unsubscribed, contradicting the claim that an
individual failure does not prevent the remaining unsubscriptions. -/
theorem onshutdown_stops_at_failure :
    onshutdown failing_unsub ["a", "b"] = (Except.error "boom", ["a"]) ∧
    "b" ∉ (["a"] : List String) := by
  exact ⟨rfl, by decide⟩

/-- C7 (amended): `onshutdown` unsubscribes the subscriptions in order while
calls succeed; the first failing unsubscribe aborts the loop and propagates
its error, so the subscriptions after the failing one are not unsubscribed. -/
theorem onshutdown_sequential (unsub : String → Except String Unit) :
    (∀ subs : List String, (∀ x ∈ subs, unsub x = Except.ok ()) →
      onshutdown unsub subs = (Except.ok (), subs)) ∧
    (∀ (pre post : List String) (s e : String),
      (∀ x ∈ pre, unsub x = Except.ok ()) → unsub s = Except.error e →
      onshutdown unsub (pre ++ s :: post) = (Except.error e, pre ++ [s])) := by
  constructor
  · intro subs h
    induction subs with
    | nil => rfl
    | cons x rest ih =>
      have hx := h x (List.mem_cons_self x rest)
      simp only [onshutdown, hx]
      rw [ih (fun y hy => h y (List.mem_cons_of_mem x hy))]
  · intro pre post s e hpre hs
    induction pre with
    | nil =>
      simp only [List.nil_append, onshutdown, hs]
    | cons x rest ih =>
      have hx := hpre x (List.mem_cons_self x rest)
      simp only [List.cons_append, onshutdown, hx, List.append_eq]
      rw [ih (fun y hy => hpre y (List.mem_cons_of_mem x hy))]

/-- C7 witness: with a failure on "a", the prefix ["z"] is unsubscribed, the
error propagates, and "b" is never attempted. -/
theorem onshutdown_sequential_witness :
    onshutdown failing_unsub ["z", "a", "b"] = (Except.error "boom", ["z", "a"]) :=
  (onshutdown_sequential failing_unsub).2 ["z"] ["b"] "a" "boom" (by decide) (by decide)

/-- C8 counterexample: the negotiator counters the inbound proposal
"inbound-id" with a body whose own id is "new-id"; the engine emits a single
`create_proposal` whose `proposal_id` argument is "new-id" — the new body's
id, not the inbound proposal's — and no countered-marking call is made. -/
theorem counter_proposal_uses_new_body_id :
    process_proposal countering_negotiator "sub" inbound_proposal =
      [TransportCall.create_proposal counter_body "sub" "new-id"] ∧
    TransportCall.mark_countered "inbound-id" ∉
      process_proposal countering_negotiator "sub" inbound_proposal ∧
    counter_body.id ≠ inbound_proposal.id := by
  exact ⟨rfl, by decide, by decide⟩

/-- C8 (amended): when the negotiator answers `CounterProposal {new_body}`,
the engine sends the new body to the transport passing the new body's own id
as the parent proposal id argument, and never marks the inbound proposal
countered (no such call exists in the engine). -/
theorem counter_proposal_behavior
    (react : AgreementProposal → Except String ProposalResponse)
    (subscription_id : String) (inbound : AgreementProposal) (new_body : Proposal)
    (h : react inbound = Except.ok (ProposalResponse.CounterProposal new_body)) :
    process_proposal react subscription_id inbound =
      [TransportCall.create_proposal new_body subscription_id new_body.id] ∧
    ∀ q, TransportCall.mark_countered q ∉
      process_proposal react subscription_id inbound := by
  have hp : process_proposal react subscription_id inbound =
      [TransportCall.create_proposal new_body subscription_id new_body.id] := by
    simp [process_proposal, h, counter_proposal]
  refine ⟨hp, ?_⟩
  intro q hq
  rw [hp] at hq
  simp at hq

/-- C8 witness. -/
theorem counter_proposal_behavior_witness :
    process_proposal countering_negotiator "sub" inbound_proposal =
      [TransportCall.create_proposal counter_body "sub" counter_body.id] :=
  (counter_proposal_behavior countering_negotiator "sub" inbound_proposal
    counter_body rfl).1

/-- C9 counterexample: `save` accepts an agreement whose provider and
requestor identities are equal and stores it, so the invariant is not
enforced by the store for all inputs. -/
theorem save_accepts_equal_identities :
    save save_store equal_identity_agreement =
      Except.ok (equal_identity_agreement,
        { agreements := [equal_identity_agreement], events := [],
          proposals := [{ id := 1, accepted := true, countered := false }] }) ∧
    equal_identity_agreement.provider_id = equal_identity_agreement.requestor_id := by
  exact ⟨by decide, rfl⟩

/-- `create_event` does not touch the agreement relation. -/
theorem create_event_agreements (st : MarketStore) (a : Agreement)
    (reason : Option String) (issuer : OwnerType) :
    (create_event st a reason issuer).agreements = st.agreements := by
  unfold create_event
  cases event_type_of a.state <;> rfl

/-- `set_state_rows` preserves the distinct-identities invariant. -/
theorem distinct_identities_set_state (st : MarketStore) (id : AgreementId)
    (to_state : AgreementState) (h : distinct_identities st) :
    distinct_identities (set_state_rows st id to_state) := by
  intro r hr
  simp only [set_state_rows, List.mem_map] at hr
  obtain ⟨r₀, hr₀, hmap⟩ := hr
  have hr₀' := h r₀ hr₀
  by_cases hc : r₀.id = id
  · rw [if_pos hc] at hmap
    rw [← hmap]
    exact hr₀'
  · rw [if_neg hc] at hmap
    rw [← hmap]
    exact hr₀'

/-- C9 (amended): the store operations preserve the invariant
`provider_id ≠ requestor_id` provided the agreements handed to `save` satisfy
it themselves — `save` (the only insert) performs no identity check, and
`select`, `terminate` and `clean` never alter identities. -/
theorem distinct_identities_preserved (st : MarketStore) (a : Agreement) :
    (distinct_identities st → a.provider_id ≠ a.requestor_id →
      ∀ a' st', save st a = Except.ok (a', st') → distinct_identities st') ∧
    (distinct_identities st →
      ∀ id node_id ts r st', select st id node_id ts = Except.ok (r, st') →
        distinct_identities st') ∧
    (distinct_identities st →
      ∀ id reason w b st', terminate st id reason w = Except.ok (b, st') →
        distinct_identities st') ∧
    (distinct_identities st → ∀ now days, distinct_identities (clean st now days)) := by
  refine ⟨?_, ?_, ?_, ?_⟩
  · intro hd hne a' st' hok
    cases hcp : has_counter_proposal st.proposals a.offer_proposal_id with
    | true => simp [save, hcp] at hok
    | false =>
      cases hf : find_agreement_for_proposal st.agreements a.offer_proposal_id with
      | some ex => simp [save, hcp, hf] at hok
      | none =>
        simp only [save, hcp, hf, Bool.false_eq_true, if_false, Except.ok.injEq,
          Prod.mk.injEq] at hok
        obtain ⟨ha, hst⟩ := hok
        rw [← hst]
        intro r hr
        rcases List.mem_append.mp hr with h1 | h2
        · exact hd r h1
        · rw [List.mem_singleton.mp h2]
          exact hne
  · intro hd id node_id ts r st' hok
    unfold select at hok
    cases hfind : st.agreements.find? (select_filter id node_id) with
    | none =>
      simp only [hfind, Except.ok.injEq, Prod.mk.injEq] at hok
      rw [← hok.2]
      exact hd
    | some a0 =>
      simp only [hfind] at hok
      by_cases hexp : a0.valid_to < ts
      · rw [if_pos hexp] at hok
        rcases check_transition_cases a0.state AgreementState.Expired with hct | hct
        · simp only [update_state, hct, Except.ok.injEq, Prod.mk.injEq] at hok
          rw [← hok.2]
          exact distinct_identities_set_state st a0.id AgreementState.Expired hd
        · simp only [update_state, hct, Except.ok.injEq, Prod.mk.injEq] at hok
          rw [← hok.2]
          exact hd
      · rw [if_neg hexp] at hok
        simp only [Except.ok.injEq, Prod.mk.injEq] at hok
        rw [← hok.2]
        exact hd
  · intro hd id reason w b st' hok
    unfold terminate at hok
    cases hfind : st.agreements.find? (fun r => r.id == id) with
    | none => simp [hfind] at hok
    | some a0 =>
      simp only [hfind] at hok
      rcases check_transition_cases a0.state AgreementState.Terminated with hct | hct
      · simp only [update_state, hct, Except.ok.injEq, Prod.mk.injEq] at hok
        rw [← hok.2]
        intro r hr
        rw [create_event_agreements] at hr
        exact distinct_identities_set_state st a0.id AgreementState.Terminated hd r hr
      · simp [update_state, hct] at hok
  · intro hd now days
    intro r hr
    have h2 : (clean st now days).agreements =
        st.agreements.filter
          (fun a => !decide (a.valid_to < now - seconds_per_day * (days : Int))) := rfl
    rw [h2] at hr
    exact hd r (List.mem_filter.mp hr).1

/-- C9 (amended) witness: the store produced by the first successful `save`
satisfies the invariant. -/
theorem distinct_identities_preserved_witness :
    distinct_identities save_store_after :=
  (distinct_identities_preserved save_store save_agreement).1 (by decide) (by decide)
    save_agreement save_store_after (by decide)

/-- The event store left after a maximal first `take` on subscription 0. -/
def queue_store_drained : EventStore :=
  { demands := [(0, DemandState.Active)], events := [] }

/-- C4 counterexample: subscription 0 of `queue_store` holds two events;
`take(0, 1)` returns event 1 and leaves event 2 behind, so the second
`take(0, 1)` — with nothing enqueued in between — returns a non-empty list,
contradicting the universally quantified second-call-empty consequence. -/
theorem take_second_call_nonempty :
    take_requestor_events queue_store 0 1 =
      Except.ok ([queue_event_1], queue_store_after) ∧
    take_requestor_events queue_store_after 0 1 =
      Except.ok ([queue_event_2], queue_store_drained) ∧
    ([queue_event_2] : List MarketEvent) ≠ [] := by
  exact ⟨rfl, rfl, by decide⟩

/-- C4 (amended): a successful `take` returns at most `max_events` events, in
ascending timestamp order, all drawn from the subscription's queue, and
deletes the returned rows; consequently a second call returns the empty list
provided the first call drained the queue, i.e. when at most `max_events`
events were pending.  (The unconditional second-call-empty consequence of the
original claim fails; see the counterexample.) -/
theorem take_requestor_events_drain (st : EventStore) (s : Nat) (max_events : Nat)
    (evs : List MarketEvent) (st' : EventStore)
    (hok : take_requestor_events st s max_events = Except.ok (evs, st')) :
    evs.length ≤ max_events ∧
    List.Sorted event_le evs ∧
    (∀ e ∈ evs, e ∈ st.events ∧ e.subscription_id = s) ∧
    ((st.events.filter (fun e => e.subscription_id == s)).length ≤ max_events →
      take_requestor_events st' s max_events = Except.ok ([], st')) := by
  have hmem : ∀ e ∈ (List.insertionSort event_le
      (st.events.filter (fun e => e.subscription_id == s))).take max_events,
      e ∈ st.events ∧ e.subscription_id = s := by
    intro e he
    have h1 := List.mem_of_mem_take he
    rw [List.mem_insertionSort] at h1
    have h2 := List.mem_filter.mp h1
    exact ⟨h2.1, by simpa using h2.2⟩
  have hlen : ((List.insertionSort event_le
      (st.events.filter (fun e => e.subscription_id == s))).take max_events).length
      ≤ max_events := by
    rw [List.length_take]
    exact Nat.min_le_left _ _
  have hsorted : List.Sorted event_le ((List.insertionSort event_le
      (st.events.filter (fun e => e.subscription_id == s))).take max_events) :=
    List.Pairwise.sublist (List.take_sublist _ _)
      (List.sorted_insertionSort event_le _)
  simp only [take_requestor_events] at hok
  cases hstat : demand_status st.demands s with
  | NotFound => simp [hstat] at hok
  | Expired => simp [hstat] at hok
  | Active =>
    simp only [hstat] at hok
    by_cases hemp : ((List.insertionSort event_le
        (st.events.filter (fun e => e.subscription_id == s))).take max_events).isEmpty
    · rw [if_pos hemp] at hok
      simp only [Except.ok.injEq, Prod.mk.injEq] at hok
      obtain ⟨hE, hst⟩ := hok
      subst hE
      subst hst
      refine ⟨hlen, hsorted, hmem, ?_⟩
      intro _
      have hnil := List.isEmpty_iff.mp hemp
      simp only [take_requestor_events, hstat]
      rw [if_pos hemp, hnil]
    · rw [if_neg hemp] at hok
      simp only [Except.ok.injEq, Prod.mk.injEq] at hok
      obtain ⟨hE, hst⟩ := hok
      subst hE
      subst hst
      refine ⟨hlen, hsorted, hmem, ?_⟩
      intro hdrain
      have hall : (List.insertionSort event_le
          (st.events.filter (fun e => e.subscription_id == s))).take max_events =
          List.insertionSort event_le
            (st.events.filter (fun e => e.subscription_id == s)) := by
        apply List.take_of_length_le
        rw [List.length_insertionSort]
        exact hdrain
      have hpend : (st.events.filter (fun e =>
          !(((List.insertionSort event_le
            (st.events.filter (fun e => e.subscription_id == s))).take
              max_events).map (fun e => e.id)).contains e.id)).filter
          (fun e => e.subscription_id == s) = [] := by
        apply List.filter_eq_nil_iff.mpr
        intro e he hp
        have h3 := List.mem_filter.mp he
        have hid_mem : e.id ∈ ((List.insertionSort event_le
            (st.events.filter (fun e => e.subscription_id == s))).take
              max_events).map (fun e => e.id) := by
          apply List.mem_map_of_mem
          rw [hall, List.mem_insertionSort]
          exact List.mem_filter.mpr ⟨h3.1, hp⟩
        have hc : (((List.insertionSort event_le
            (st.events.filter (fun e => e.subscription_id == s))).take
              max_events).map (fun e => e.id)).contains e.id = true := by
          rw [List.contains_iff_exists_mem_beq]
          exact ⟨e.id, hid_mem, by simp⟩
        have h4 := h3.2
        rw [hc] at h4
        simp at h4
      simp only [take_requestor_events, hstat, hpend]
      simp

/-- C4 witness: draining `queue_store` with `max_events = 5` (two pending
events) leaves a queue on which the second call returns the empty list. -/
theorem take_requestor_events_drain_witness :
    take_requestor_events queue_store_drained 0 5 =
      Except.ok ([], queue_store_drained) :=
  (take_requestor_events_drain queue_store 0 5 [queue_event_1, queue_event_2]
    queue_store_drained (by decide)).2.2.2 (by decide)

end Yagna
